import Mathlib

/-!
# Verification of the camera dashboard core (Go) against its specification

Shallow embedding of the repository's camera manager, frame buffer,
adaptive FPS controller and telemetry helpers, together with theorems
settling the specification claims.

Conventions:
* Go `int` is embedded as `Int`, Go `uint64` counters as `Nat`
  (all claim-relevant counters only increase from 0 and never overflow
  in the claims' scope), Go `string` as `String`.
* Go `error` values are embedded as `Option String` (`none` = `nil`,
  `some msg` = the error produced by `fmt.Errorf`).
* Pointers that may be `nil` (`[]*CaptureWorker` entries) are embedded
  as `Option`.
-/

namespace CameraDash

/-! ## Camera settings (source: `src/unnamed/part_002`, package `camera`)

The `Settings` struct of the source has exactly the four fields below;
it has no maximum-camera-count field, and the package declares no
`DefaultMaxCameras` constant. -/

/-- Default capture width (source constant `DefaultWidth`). -/
def DefaultWidth : Int := 640

/-- Default capture height (source constant `DefaultHeight`). -/
def DefaultHeight : Int := 480

/-- Default target FPS (source constant `DefaultFPS`). -/
def DefaultFPS : Int := 15

/-- Default capture format (source constant `DefaultFormat`). -/
def DefaultFormat : String := "mjpeg"

/-- `Settings` as declared in `src/unnamed/part_002`: capture width,
height, target FPS and pixel format. The source struct has no further
fields. -/
structure Settings where
  Width : Int
  Height : Int
  FPS : Int
  Format : String
  deriving DecidableEq, Repr

/-- `DefaultSettings()` from `src/unnamed/part_002`. -/
def DefaultSettings : Settings :=
  { Width := DefaultWidth
    Height := DefaultHeight
    FPS := DefaultFPS
    Format := DefaultFormat }

/-! ## Camera and capture worker (manager source in
`src/internal/camera/framebuffer_test.go`, lines 210-496)

The capture worker's subprocess machinery is irrelevant to the claims
settled here; a worker is embedded by the observable effect the manager
can have on it: its restart counter and the `error` its `Restart()`
returns. -/

/-- A discovered camera: stable `DeviceID` and the (possibly changing)
device node path. -/
structure Camera where
  DeviceID : String
  DevicePath : String
  deriving DecidableEq, Repr

/-- A capture worker, abstracted to what the manager claims observe:
how many times `Restart()` has been invoked on it, and the result its
`Restart()` returns. -/
structure CaptureWorker where
  restartCount : Nat
  restartResult : Option String
  deriving DecidableEq, Repr

/-- Effect of `worker.Restart()` on the worker's own state. -/
def CaptureWorker.restart (w : CaptureWorker) : CaptureWorker :=
  { w with restartCount := w.restartCount + 1 }

/-- The `Manager` struct (manager source, lines 221-230). The frame
channel / frame buffer maps are omitted: no claim settled here reads
them, and they are keyed copies of per-camera state. `workers` entries
are `Option` because the Go slice holds nullable pointers. -/
structure Manager where
  cameras : List Camera
  workers : List (Option CaptureWorker)
  settings : Settings
  useBufferMode : Bool
  running : Bool
  deriving DecidableEq, Repr

/-- `NewManagerWithSettings(s, useBuffers)` (manager source, lines
253-274): substitutes package defaults for zero-valued fields, then
builds a manager holding the resolved settings. -/
def NewManagerWithSettings (s : Settings) (useBuffers : Bool) : Manager :=
  let s := if s.Width = 0 then { s with Width := DefaultWidth } else s
  let s := if s.Height = 0 then { s with Height := DefaultHeight } else s
  let s := if s.FPS = 0 then { s with FPS := DefaultFPS } else s
  let s := if s.Format = "" then { s with Format := DefaultFormat } else s
  { cameras := []
    workers := []
    settings := s
    useBufferMode := useBuffers
    running := false }

/-- `(m *Manager) GetSettings()` (manager source, lines 277-279). -/
def Manager.GetSettings (m : Manager) : Settings :=
  m.settings

/-! ## `Manager.Start` as an event trace (manager source, lines 333-358)

`Start()` acquires the manager mutex (write lock) on entry and releases
it with `defer` when it returns. In between it iterates over the
workers: for every worker after the first it sleeps 500 ms, then calls
the worker's `Start()`, returning that worker's error immediately if it
is non-nil. To reason about lock scope and ordering, the execution is
embedded as the sequence of observable events it performs, in program
order; each worker's `Start()` outcome is an input (`none` = success,
`some msg` = the error it returns). -/

/-- One observable event of a manager operation. -/
inductive StartEv where
  /-- `m.mutex.Lock()` -/
  | lockAcquire : StartEv
  /-- the deferred `m.mutex.Unlock()` -/
  | lockRelease : StartEv
  /-- `time.Sleep(ms * time.Millisecond)` -/
  | sleepMs (ms : Nat) : StartEv
  /-- `worker.Start()` for the worker at index `i` -/
  | workerStart (i : Nat) : StartEv
  /-- `worker.Stop()` for the worker at index `i` -/
  | workerStop (i : Nat) : StartEv
  deriving DecidableEq, Repr

/-- Events of the `for i, worker := range m.workers` loop in `Start()`,
starting at index `i`, paired with the returned error: before each
start other than the very first the loop sleeps 500 ms, then invokes
the worker's `Start()`; a non-nil error ends the loop immediately. -/
def startLoop (i : Nat) : List (Option String) → List StartEv × Option String
  | [] => ([], none)
  | w :: rest =>
    let evs := (if 0 < i then [StartEv.sleepMs 500] else []) ++ [StartEv.workerStart i]
    match w with
    | some e => (evs, some e)
    | none =>
      let (t, r) := startLoop (i + 1) rest
      (evs ++ t, r)

/-- `Manager.Start()` as a trace: lock on entry, loop, deferred unlock
on every return path. `running` is the manager's `running` flag;
`ws` lists each worker's `Start()` result in worker order. Returns the
event trace and the `error` result (`ErrManagerNotInitialized` when the
manager was never initialized). -/
def managerStart (running : Bool) (ws : List (Option String)) :
    List StartEv × Option String :=
  if running then
    let (t, r) := startLoop 0 ws
    (StartEv.lockAcquire :: (t ++ [StartEv.lockRelease]), r)
  else
    ([StartEv.lockAcquire, StartEv.lockRelease], some "camera manager not initialized")

/-- Is this event one of the blocking operations the concurrency claim
is about (a sleep or a worker's subprocess-spawning `Start`)? -/
def StartEv.isBlocking : StartEv → Bool
  | .sleepMs _ => true
  | .workerStart _ => true
  | _ => false

/-- Does this event touch the lock? -/
def StartEv.isLockOp : StartEv → Bool
  | .lockAcquire => true
  | .lockRelease => true
  | _ => false

/-- Annotate each event of a trace with whether the mutex is held when
the event executes (`held` is the lock state entering the trace; an
acquire/release event changes the state for the events after it). -/
def annotateLock : List StartEv → Bool → List (StartEv × Bool)
  | [], _ => []
  | e :: rest, held =>
    let next := match e with
      | .lockAcquire => true
      | .lockRelease => false
      | _ => held
    (e, held) :: annotateLock rest next

/-- Every blocking event of the trace executes while the lock is held
(trace entered with the lock free). -/
def blockingHoldsLock (tr : List StartEv) : Bool :=
  (annotateLock tr false).all fun p => !p.1.isBlocking || p.2

/-- Spec-side description of the staggered start pattern: attempted
worker starts `i, i+1, ...` (`k` of them), each preceded by a 500 ms
sleep except a start at index 0. -/
def staggeredFrom (i : Nat) : Nat → List StartEv
  | 0 => []
  | k + 1 =>
    (if 0 < i then [StartEv.sleepMs 500] else []) ++
      [StartEv.workerStart i] ++ staggeredFrom (i + 1) k

/-- Spec-side count of the workers `Start()` attempts: every worker up
to and including the first that fails. -/
def attemptedCount : List (Option String) → Nat
  | [] => 0
  | none :: rest => 1 + attemptedCount rest
  | some _ :: _ => 1

/-- Spec-side first error among the workers' `Start()` results. -/
def firstErr : List (Option String) → Option String
  | [] => none
  | none :: rest => firstErr rest
  | some e :: _ => some e

/-! ## Per-camera restart (manager source, lines 455-491) -/

/-- The search loop of `RestartCamera`: the first index `i` (starting
from `acc`) whose camera has the requested `DeviceID` and for which
`i < len(m.workers)`; `none` when the loop finds no such camera. -/
def findWorkerIndex (id : String) (numWorkers : Nat) :
    List Camera → Nat → Option Nat
  | [], _ => none
  | cam :: rest, i =>
    if cam.DeviceID = id ∧ i < numWorkers then some i
    else findWorkerIndex id numWorkers rest (i + 1)

/-- `(m *Manager) RestartCamera(cameraID)` (manager source, lines
455-472): locate the worker under the read lock, release the lock,
then either fail with the "not found" error (no matching camera, or a
nil worker pointer at the matched slot) or invoke exactly that
worker's `Restart()`. Returns the updated manager and the `error`
result. -/
def Manager.RestartCamera (m : Manager) (cameraID : String) :
    Manager × Option String :=
  match findWorkerIndex cameraID m.workers.length m.cameras 0 with
  | none => (m, some s!"camera {cameraID} not found")
  | some i =>
    match m.workers[i]? with
    | some (some w) =>
      ({ m with workers := m.workers.set i (some w.restart) }, w.restartResult)
    | _ => (m, some s!"camera {cameraID} not found")

/-- `(m *Manager) RestartCameraByIndex(index)` (manager source, lines
476-491): range-check the index, fail on a nil worker slot, otherwise
invoke exactly that worker's `Restart()`. -/
def Manager.RestartCameraByIndex (m : Manager) (index : Int) :
    Manager × Option String :=
  if index < 0 ∨ (m.workers.length : Int) ≤ index then
    (m, some s!"camera index {index} out of range")
  else
    match m.workers[index.toNat]? with
    | some (some w) =>
      ({ m with workers := m.workers.set index.toNat (some w.restart) },
        w.restartResult)
    | _ => (m, some s!"camera at index {index} has no worker")

/-- A concrete two-camera manager used to witness the restart claims. -/
def exampleManager : Manager :=
  { cameras := [⟨"cam0", "/dev/video0"⟩, ⟨"cam1", "/dev/video2"⟩]
    workers := [some ⟨0, none⟩, some ⟨3, some "busy"⟩]
    settings := DefaultSettings
    useBufferMode := true
    running := true }

/-! ## Frame buffer

Modelled from the spec: the `FrameBuffer` implementation file is not
under `src/` (only its tests are), so the buffer is embedded from the
spec's contract (§4.1 and §3 "Frame Buffer state"): a single-slot
latest-frame store with a monotonically increasing `frameCount`, a
dropped counter, `Read` returning the most recent image or an explicit
"no frame yet" result (`none`, the tests' `nil`), and
`ReadIfNew(lastSeen)` returning `(image, newSeq, hasNew)`. Timing
fields (`lastFrameTime`, capture start time) and `GetCaptureStats` are
real-time quantities no claim settled here depends on; they are
omitted. Images are embedded as opaque handles (`Nat`): a `Write`
replaces the stored reference, never mutates in place. -/

/-- Frame-buffer state: the stored image reference (`none` = no frame
yet), the monotonically increasing frame counter and the dropped
counter. -/
structure FrameBuffer where
  frame : Option Nat
  frameCount : Nat
  droppedCount : Nat
  deriving DecidableEq, Repr

/-- `NewFrameBuffer()`: empty slot, zero counters. -/
def NewFrameBuffer : FrameBuffer :=
  { frame := none, frameCount := 0, droppedCount := 0 }

/-- `Write(image)`: publishes a newly decoded frame — replaces the
stored image reference and increments `frameCount`; never blocks on
readers (latest-frame-only, the previous slot is overwritten). -/
def FrameBuffer.Write (fb : FrameBuffer) (img : Nat) : FrameBuffer :=
  { fb with frame := some img, frameCount := fb.frameCount + 1 }

/-- `Read()`: the most recently written image, or `none` ("no frame
yet") if `Write` has never been called. -/
def FrameBuffer.Read (fb : FrameBuffer) : Option Nat :=
  fb.frame

/-- `ReadIfNew(lastSeenSeq)`: `(image, newSeq, hasNew)`; `hasNew` is
true iff `frameCount` has advanced past `lastSeenSeq`, in which case
the current image and the current `frameCount` are returned; otherwise
no image is handed out and the caller keeps its sequence number. -/
def FrameBuffer.ReadIfNew (fb : FrameBuffer) (lastSeenSeq : Nat) :
    Option Nat × Nat × Bool :=
  if lastSeenSeq < fb.frameCount then (fb.frame, fb.frameCount, true)
  else (none, lastSeenSeq, false)

/-- `GetFrameCount()`. -/
def FrameBuffer.GetFrameCount (fb : FrameBuffer) : Nat :=
  fb.frameCount

/-- `GetDroppedCount()`. -/
def FrameBuffer.GetDroppedCount (fb : FrameBuffer) : Nat :=
  fb.droppedCount

/-- `MarkDropped()`: increments `droppedCount` without touching the
image. -/
def FrameBuffer.MarkDropped (fb : FrameBuffer) : FrameBuffer :=
  { fb with droppedCount := fb.droppedCount + 1 }

/-- `Reset()`: clears all counters and the stored image back to the
initial state. -/
def FrameBuffer.Reset (_fb : FrameBuffer) : FrameBuffer :=
  NewFrameBuffer

/-- The buffer after a fresh buffer receives the given sequence of
`Write` calls, in order. -/
def writeAll (imgs : List Nat) : FrameBuffer :=
  imgs.foldl FrameBuffer.Write NewFrameBuffer

/-! ## Adaptive FPS controller

Modelled from the spec: the `perf` package's controller implementation
(`NewSmartController`, `changeFPS`, the accessors) is not under `src/`
(only its tests are). The controller is embedded from §4.5 of the
spec: `minFPS` is clamped to a global floor constant, `maxFPS` to a
global ceiling constant (the tests name them `MinFPS = 10` and
`MaxFPS = 30`); with dynamic adjustment disabled,
`minFPS = maxFPS = currentFPS = configured capture FPS` (fixed-rate
mode); `changeFPS(target)` clamps the target to `[minFPS, maxFPS]` and
is a no-op — touching no adjustment bookkeeping — when the clamped
value equals the current FPS. The 4-state control loop itself is
driven by real-time telemetry and is not needed by the claims settled
here; only the adjustment counter of the bookkeeping is modelled. -/

/-- Global FPS floor (the tests' `MinFPS` constant). -/
def MinFPS : Nat := 10

/-- Global FPS ceiling (the tests' `MaxFPS` constant). -/
def MaxFPS : Nat := 30

/-- The configuration fields the controller consumes. -/
structure Config where
  DynamicFPSEnabled : Bool
  CaptureFPS : Nat
  MinDynamicFPS : Nat
  deriving DecidableEq, Repr

/-- Controller state. -/
structure SmartController where
  dynamicEnabled : Bool
  minFPS : Nat
  maxFPS : Nat
  currentFPS : Nat
  adjustCount : Nat
  sweetSpotFPS : Nat
  deriving DecidableEq, Repr

/-- `NewSmartController(monitor, cfg)`: a nil config disables dynamic
adjustment and falls back to the default capture FPS; a config with
dynamic adjustment disabled yields fixed-rate mode
(`minFPS = maxFPS = currentFPS = CaptureFPS`); with dynamic adjustment
enabled, `minFPS` is the configured minimum clamped up to the global
floor and `maxFPS` (also the starting FPS and sweet-spot estimate) is
the capture FPS clamped down to the global ceiling. -/
def NewSmartController (cfg : Option Config) : SmartController :=
  match cfg with
  | none =>
    { dynamicEnabled := false, minFPS := 15, maxFPS := 15,
      currentFPS := 15, adjustCount := 0, sweetSpotFPS := 15 }
  | some c =>
    if c.DynamicFPSEnabled then
      let mn := max c.MinDynamicFPS MinFPS
      let mx := min c.CaptureFPS MaxFPS
      { dynamicEnabled := true, minFPS := mn, maxFPS := mx,
        currentFPS := mx, adjustCount := 0, sweetSpotFPS := mx }
    else
      { dynamicEnabled := false, minFPS := c.CaptureFPS, maxFPS := c.CaptureFPS,
        currentFPS := c.CaptureFPS, adjustCount := 0,
        sweetSpotFPS := c.CaptureFPS }

/-- `GetCurrentFPS()`. -/
def SmartController.GetCurrentFPS (sc : SmartController) : Nat :=
  sc.currentFPS

/-- `changeFPS(target)`: clamp the target into `[minFPS, maxFPS]`; if
the clamped value equals the current FPS the call is a no-op
(no adjustment bookkeeping is touched), otherwise the FPS changes and
the adjustment counter advances. -/
def SmartController.changeFPS (sc : SmartController) (target : Nat) :
    SmartController :=
  let t := min sc.maxFPS (max sc.minFPS target)
  if t = sc.currentFPS then sc
  else { sc with currentFPS := t, adjustCount := sc.adjustCount + 1 }

/-! ## Telemetry normalization

Modelled from the spec: `normalizeLoadAverage` lives in the `perf`
package whose implementation file is not under `src/` (only its test
is). Embedded from §4.5 of the spec over exact rationals — the Go
implementation uses `float64`, but every quantity the claim mentions
(`2.0/4`, `10.0/4`, `-1.0/4`, `1.0/1` and the clamp bounds 0 and 1) is
exactly representable, so rational arithmetic agrees with the float
computation on them: a non-positive CPU count is treated as one core,
the 1-minute load average is divided by the core count, and the
quotient is clamped into `[0, 1]`. -/

/-- `normalizeLoadAverage(load1, cpuCount)`. -/
def normalizeLoadAverage (load1 : ℚ) (cpuCount : Int) : ℚ :=
  let cores : Int := if cpuCount ≤ 0 then 1 else cpuCount
  let v : ℚ := load1 / (cores : ℚ)
  if v < 0 then 0 else if 1 < v then 1 else v

end CameraDash

namespace CameraDash

/-! ## Lemmas about the `Start` trace -/

/-- Every event the start loop emits is a sleep or a worker start. -/
lemma startLoop_all_blocking :
    ∀ (ws : List (Option String)) (i : Nat),
      ∀ e ∈ (startLoop i ws).1, e.isBlocking = true := by
  intro ws
  induction ws with
  | nil => intro i e he; simp [startLoop] at he
  | cons w rest ih =>
    intro i e he
    cases w with
    | some err =>
      simp only [startLoop] at he
      rcases List.mem_append.mp he with h | h
      · split at h <;> simp_all [StartEv.isBlocking]
      · simp_all [StartEv.isBlocking]
    | none =>
      simp only [startLoop] at he
      rcases List.mem_append.mp he with h | h
      · rcases List.mem_append.mp h with h' | h'
        · split at h' <;> simp_all [StartEv.isBlocking]
        · simp_all [StartEv.isBlocking]
      · exact ih (i + 1) e h

/-- A blocking event is not a lock operation. -/
lemma isLockOp_eq_false_of_isBlocking {e : StartEv} (h : e.isBlocking = true) :
    e.isLockOp = false := by
  cases e <;> simp_all [StartEv.isBlocking, StartEv.isLockOp]

/-- A blocking event is not a worker stop. -/
lemma ne_workerStop_of_isBlocking {e : StartEv} (h : e.isBlocking = true) (i : Nat) :
    e ≠ StartEv.workerStop i := by
  cases e <;> simp_all [StartEv.isBlocking]

/-- With the lock held and no lock operation inside `mid`, every event
of `mid ++ [lockRelease]` is annotated as lock-held except the final
release's effect, so all blocking events there hold the lock. -/
lemma annotate_mid_all_held (mid : List StartEv)
    (h : ∀ e ∈ mid, e.isLockOp = false) :
    (annotateLock (mid ++ [StartEv.lockRelease]) true).all
      (fun p => !p.1.isBlocking || p.2) = true := by
  induction mid with
  | nil => simp [annotateLock]
  | cons e rest ih =>
    have he : e.isLockOp = false := h e (List.mem_cons_self e rest)
    have hrest : ∀ x ∈ rest, x.isLockOp = false :=
      fun x hx => h x (List.mem_cons_of_mem e hx)
    cases e <;> simp_all [annotateLock, StartEv.isLockOp, StartEv.isBlocking]

/-- The start-loop trace is exactly the spec-side staggered pattern for
the attempted workers. -/
lemma startLoop_fst :
    ∀ (ws : List (Option String)) (i : Nat),
      (startLoop i ws).1 = staggeredFrom i (attemptedCount ws) := by
  intro ws
  induction ws with
  | nil => intro i; rfl
  | cons w rest ih =>
    intro i
    cases w with
    | some err =>
      simp [startLoop, attemptedCount, staggeredFrom]
    | none =>
      have : 1 + attemptedCount rest = attemptedCount rest + 1 := Nat.add_comm _ _
      simp [startLoop, attemptedCount, this, staggeredFrom, ih (i + 1),
        List.append_assoc]

/-- The start loop returns the first worker error. -/
lemma startLoop_snd :
    ∀ (ws : List (Option String)) (i : Nat),
      (startLoop i ws).2 = firstErr ws := by
  intro ws
  induction ws with
  | nil => intro i; rfl
  | cons w rest ih =>
    intro i
    cases w with
    | some err => simp [startLoop, firstErr]
    | none => simp [startLoop, firstErr, ih (i + 1)]

/-! ## Theorems: settings claims -/

/-- **C2** (code evaluated at the failing input). The source `Settings`
type carries exactly width, height, FPS and format: every value is
determined by those four fields alone, `DefaultSettings()` is the
four-component record `(640, 480, 15, "mjpeg")`, and the settings a
manager built without explicit values exposes via `GetSettings` are
that same four-field record — there is no max-camera-count component
anywhere in the type, contradicting the claim (and the package's own
tests, which read `s.MaxCameras` and `DefaultMaxCameras`). -/
theorem settings_has_no_maxCameras_component :
    (∀ s : Settings, s = { Width := s.Width, Height := s.Height,
                           FPS := s.FPS, Format := s.Format }) ∧
    DefaultSettings = { Width := 640, Height := 480, FPS := 15, Format := "mjpeg" } ∧
    (NewManagerWithSettings { Width := 640, Height := 480, FPS := 20, Format := "mjpeg" } true).GetSettings
      = { Width := 640, Height := 480, FPS := 20, Format := "mjpeg" } := by
  refine ⟨fun s => ?_, rfl, rfl⟩
  cases s
  rfl

/-- **C10**. `NewManagerWithSettings` substitutes the package default
for each zero-valued field (width 640, height 480, FPS 15, format
"mjpeg"), leaves non-zero fields unchanged, and `GetSettings` returns
exactly the resolved settings. -/
theorem newManagerWithSettings_resolves_defaults (s : Settings) (useBuffers : Bool) :
    (NewManagerWithSettings s useBuffers).GetSettings =
      { Width := if s.Width = 0 then 640 else s.Width
        Height := if s.Height = 0 then 480 else s.Height
        FPS := if s.FPS = 0 then 15 else s.FPS
        Format := if s.Format = "" then "mjpeg" else s.Format } := by
  cases s with
  | mk w h f fmt =>
    simp only [NewManagerWithSettings, Manager.GetSettings,
      DefaultWidth, DefaultHeight, DefaultFPS, DefaultFormat]
    by_cases hw : w = 0 <;> by_cases hh : h = 0 <;>
      by_cases hf : f = 0 <;> by_cases hfmt : fmt = "" <;>
      simp [hw, hh, hf, hfmt]

/-! ## Theorems: manager start claims -/

/-- **C1, counterexample.** With two workers that both start
successfully, the `Manager.Start` trace is lock-acquire, start of
worker 0, the 500 ms staggered-start sleep, start of worker 1,
lock-release — and the annotation shows both the sleep and worker 1's
`Start()` execute while the manager mutex is held, refuting the claim
that the lock is never held across these blocking operations. -/
theorem manager_start_lock_held_cex :
    (managerStart true [none, none]).1 =
      [StartEv.lockAcquire, StartEv.workerStart 0, StartEv.sleepMs 500,
       StartEv.workerStart 1, StartEv.lockRelease] ∧
    (StartEv.sleepMs 500, true) ∈ annotateLock (managerStart true [none, none]).1 false ∧
    (StartEv.workerStart 1, true) ∈ annotateLock (managerStart true [none, none]).1 false := by
  refine ⟨rfl, ?_, ?_⟩ <;> decide

/-- **C1, amended.** `Manager.Start` acquires the manager's single
reader/writer lock on entry and releases it only when it returns: for
every running flag and every sequence of worker outcomes, the trace
begins with the lock acquire, ends with the lock release, and every
blocking operation in between — each 500 ms staggered-start sleep and
each worker's `Start()` call — executes while the lock is held. -/
theorem manager_start_holds_lock_across_blocking
    (running : Bool) (ws : List (Option String)) :
    (managerStart running ws).1.head? = some StartEv.lockAcquire ∧
    (managerStart running ws).1.getLast? = some StartEv.lockRelease ∧
    blockingHoldsLock (managerStart running ws).1 = true := by
  cases running with
  | false => refine ⟨rfl, rfl, rfl⟩
  | true =>
    have hmid : ∀ e ∈ (startLoop 0 ws).1, e.isLockOp = false := fun e he =>
      isLockOp_eq_false_of_isBlocking (startLoop_all_blocking ws 0 e he)
    refine ⟨rfl, ?_, ?_⟩
    · show (StartEv.lockAcquire :: ((startLoop 0 ws).1 ++ [StartEv.lockRelease])).getLast?
        = some StartEv.lockRelease
      rw [← List.cons_append, List.getLast?_concat]
    · show blockingHoldsLock
        (StartEv.lockAcquire :: ((startLoop 0 ws).1 ++ [StartEv.lockRelease])) = true
      have h2 := annotate_mid_all_held (startLoop 0 ws).1 hmid
      simp only [blockingHoldsLock, annotateLock, List.all_cons, Bool.and_eq_true]
      exact ⟨rfl, h2⟩

/-- **C1, amended, witness.** The amended theorem applied to a
two-worker start: trace bracketed by acquire/release with all blocking
events under the lock. -/
theorem manager_start_holds_lock_across_blocking_witness :
    (managerStart true [none, none]).1.head? = some StartEv.lockAcquire ∧
    (managerStart true [none, none]).1.getLast? = some StartEv.lockRelease ∧
    blockingHoldsLock (managerStart true [none, none]).1 = true :=
  manager_start_holds_lock_across_blocking true [none, none]

/-- **C3.** `Manager.Start` (on an initialized manager) starts workers
in discovery order with a 500 ms sleep before each start after the
first, attempts exactly the workers up to and including the first
failure, returns the first worker error (nil if none fails), and never
stops an already-started worker (no rollback events in the trace). -/
theorem managerStart_staggered_abort_no_rollback (ws : List (Option String)) :
    (managerStart true ws).2 = firstErr ws ∧
    (managerStart true ws).1.filter StartEv.isBlocking =
      staggeredFrom 0 (attemptedCount ws) ∧
    ∀ i, StartEv.workerStop i ∉ (managerStart true ws).1 := by
  have hall := startLoop_all_blocking ws 0
  refine ⟨?_, ?_, ?_⟩
  · show (startLoop 0 ws).2 = firstErr ws
    exact startLoop_snd ws 0
  · show (StartEv.lockAcquire :: ((startLoop 0 ws).1 ++ [StartEv.lockRelease])).filter
      StartEv.isBlocking = staggeredFrom 0 (attemptedCount ws)
    have h1 : (startLoop 0 ws).1.filter StartEv.isBlocking = (startLoop 0 ws).1 :=
      List.filter_eq_self.mpr hall
    rw [List.filter_cons, List.filter_append, h1]
    norm_num [StartEv.isBlocking, List.filter, startLoop_fst ws 0]
  · intro i hmem
    have hm : StartEv.workerStop i ∈
        (StartEv.lockAcquire :: ((startLoop 0 ws).1 ++ [StartEv.lockRelease])) := hmem
    rcases List.mem_cons.mp hm with h | h
    · exact StartEv.noConfusion h
    · rcases List.mem_append.mp h with h' | h'
      · exact ne_workerStop_of_isBlocking (hall _ h') i rfl
      · simp at h'

/-- **C3, witness.** Three workers where the second fails to start:
the trace attempts workers 0 and 1 only (sleeping 500 ms before
worker 1), returns the second worker's error, and stops nobody. -/
theorem managerStart_staggered_witness :
    (managerStart true [none, some "spawn failed", none]).2 = some "spawn failed" ∧
    (managerStart true [none, some "spawn failed", none]).1.filter
        StartEv.isBlocking =
      [StartEv.workerStart 0, StartEv.sleepMs 500, StartEv.workerStart 1] ∧
    StartEv.workerStop 0 ∉ (managerStart true [none, some "spawn failed", none]).1 := by
  have h := managerStart_staggered_abort_no_rollback [none, some "spawn failed", none]
  exact ⟨by rw [h.1]; rfl, by rw [h.2.1]; rfl, h.2.2 0⟩

/-! ## Theorems: per-camera restart claims -/

/-- When no camera carries the requested id, the `RestartCamera` search
loop fails from any starting index. -/
lemma findWorkerIndex_eq_none {id : String} {nw : Nat} :
    ∀ (cams : List Camera), (∀ cam ∈ cams, cam.DeviceID ≠ id) →
      ∀ i, findWorkerIndex id nw cams i = none := by
  intro cams
  induction cams with
  | nil => intro _ i; rfl
  | cons cam rest ih =>
    intro h i
    have hcam : cam.DeviceID ≠ id := h cam (List.mem_cons_self cam rest)
    have hrest : ∀ c ∈ rest, c.DeviceID ≠ id :=
      fun c hc => h c (List.mem_cons_of_mem cam hc)
    simp [findWorkerIndex, hcam, ih hrest (i + 1)]

/-- **C9.** `RestartCamera` returns the non-nil "not found" error and
leaves the manager untouched whenever no discovered camera carries the
id; `RestartCameraByIndex` returns a non-nil error for an index out of
`[0, number of workers)` and for a nil worker slot, leaving the
manager untouched; and when the identity is known (matched camera with
a live worker, or an in-range index with a live worker), exactly that
worker is replaced by its `Restart()`-ed version — every other worker
slot, the camera list and the settings are unchanged — and the call
returns that worker's `Restart()` result. -/
theorem restartCamera_notFound_and_isolated :
    (∀ (m : Manager) (id : String), (∀ cam ∈ m.cameras, cam.DeviceID ≠ id) →
      m.RestartCamera id = (m, some s!"camera {id} not found")) ∧
    (∀ (m : Manager) (i : Int), i < 0 ∨ (m.workers.length : Int) ≤ i →
      m.RestartCameraByIndex i = (m, some s!"camera index {i} out of range")) ∧
    (∀ (m : Manager) (i : Int), 0 ≤ i → i < (m.workers.length : Int) →
      m.workers[i.toNat]? = some none →
      m.RestartCameraByIndex i = (m, some s!"camera at index {i} has no worker")) ∧
    (∀ (m : Manager) (id : String) (i : Nat) (w : CaptureWorker),
      findWorkerIndex id m.workers.length m.cameras 0 = some i →
      m.workers[i]? = some (some w) →
      m.RestartCamera id =
        ({ m with workers := m.workers.set i (some w.restart) }, w.restartResult) ∧
      (m.RestartCamera id).1.cameras = m.cameras ∧
      (m.RestartCamera id).1.settings = m.settings ∧
      ∀ j, j ≠ i → (m.RestartCamera id).1.workers[j]? = m.workers[j]?) ∧
    (∀ (m : Manager) (i : Nat) (w : CaptureWorker),
      i < m.workers.length → m.workers[i]? = some (some w) →
      m.RestartCameraByIndex i =
        ({ m with workers := m.workers.set i (some w.restart) }, w.restartResult) ∧
      ∀ j, j ≠ i → (m.RestartCameraByIndex i).1.workers[j]? = m.workers[j]?) := by
  refine ⟨?_, ?_, ?_, ?_, ?_⟩
  · intro m id h
    simp [Manager.RestartCamera, findWorkerIndex_eq_none m.cameras h 0]
  · intro m i h
    simp [Manager.RestartCameraByIndex, if_pos h]
  · intro m i h0 hlt hnil
    have hcond : ¬(i < 0 ∨ (m.workers.length : Int) ≤ i) := by
      push_neg
      exact ⟨h0, hlt⟩
    unfold Manager.RestartCameraByIndex
    rw [if_neg hcond, hnil]
  · intro m id i w hfind hget
    have hres : m.RestartCamera id =
        ({ m with workers := m.workers.set i (some w.restart) }, w.restartResult) := by
      simp [Manager.RestartCamera, hfind, hget]
    refine ⟨hres, by rw [hres], by rw [hres], ?_⟩
    intro j hj
    rw [hres]
    exact List.getElem?_set_ne (Ne.symm hj) ..
  · intro m i w hi hget
    have hcond : ¬((i : Int) < 0 ∨ (m.workers.length : Int) ≤ (i : Int)) := by
      push_neg
      exact ⟨by positivity, by exact_mod_cast hi⟩
    have htoNat : ((i : Int)).toNat = i := Int.toNat_natCast i
    have hres : m.RestartCameraByIndex i =
        ({ m with workers := m.workers.set i (some w.restart) }, w.restartResult) := by
      unfold Manager.RestartCameraByIndex
      rw [if_neg hcond, htoNat, hget]
    refine ⟨hres, ?_⟩
    intro j hj
    rw [hres]
    exact List.getElem?_set_ne (Ne.symm hj) ..

/-- **C9, witness.** On the two-camera manager: an unknown id fails
with "not found", index −1 fails out of range, and restarting camera
"cam0" succeeds with exactly worker 0 replaced, worker 1 untouched. -/
theorem restartCamera_notFound_and_isolated_witness :
    exampleManager.RestartCamera "nope" =
      (exampleManager, some "camera nope not found") ∧
    exampleManager.RestartCameraByIndex (-1) =
      (exampleManager, some "camera index -1 out of range") ∧
    (exampleManager.RestartCamera "cam0").2 = none ∧
    (exampleManager.RestartCamera "cam0").1.workers[0]? =
      some (some ⟨1, none⟩) ∧
    (exampleManager.RestartCamera "cam0").1.workers[1]? =
      exampleManager.workers[1]? := by
  have h1 := restartCamera_notFound_and_isolated.1 exampleManager "nope" (by decide)
  have h2 := restartCamera_notFound_and_isolated.2.1 exampleManager (-1)
    (by left; decide)
  have h4 := restartCamera_notFound_and_isolated.2.2.2.1 exampleManager "cam0" 0
    ⟨0, none⟩ (by decide) (by decide)
  exact ⟨h1, h2, by rw [h4.1], by rw [h4.1]; rfl, h4.2.2.2 1 (by decide)⟩

/-! ## Theorems: frame buffer claims -/

/-- A sequence of writes advances `frameCount` by exactly its length. -/
lemma foldl_write_frameCount :
    ∀ (imgs : List Nat) (fb : FrameBuffer),
      (imgs.foldl FrameBuffer.Write fb).frameCount = fb.frameCount + imgs.length := by
  intro imgs
  induction imgs with
  | nil => intro fb; simp
  | cons a l ih =>
    intro fb
    rw [List.foldl_cons, ih]
    simp [FrameBuffer.Write]
    omega

/-- After a sequence of writes the stored image is the last image
written, or the prior slot content if the sequence is empty. -/
lemma foldl_write_frame :
    ∀ (imgs : List Nat) (fb : FrameBuffer),
      (imgs.foldl FrameBuffer.Write fb).frame = imgs.getLast?.elim fb.frame some := by
  intro imgs
  induction imgs with
  | nil => intro fb; rfl
  | cons a l ih =>
    intro fb
    rw [List.foldl_cons, ih]
    cases l with
    | nil => rfl
    | cons b m =>
      rw [List.getLast?_cons_cons]
      rcases hx : (b :: m).getLast? with _ | x
      · have hs : (b :: m).getLast?.isSome := List.getLast?_isSome.mpr (by simp)
        rw [hx] at hs
        exact absurd hs (by simp)
      · rfl

/-- Case analysis of `ReadIfNew`. -/
lemma readIfNew_cases (fb : FrameBuffer) (s : Nat) :
    (s < fb.frameCount → fb.ReadIfNew s = (fb.frame, fb.frameCount, true)) ∧
    (¬s < fb.frameCount → fb.ReadIfNew s = (none, s, false)) :=
  ⟨fun h => by simp [FrameBuffer.ReadIfNew, if_pos h],
   fun h => by simp [FrameBuffer.ReadIfNew, if_neg h]⟩

/-- **C5.** After any sequence of N writes, `GetFrameCount` is exactly
N and `Read` returns the most recently written image (`getLast?` of
the written sequence); with no writes at all, `Read` returns the
explicit "no frame yet" result `none`. -/
theorem frameBuffer_count_and_read (imgs : List Nat) :
    (writeAll imgs).GetFrameCount = imgs.length ∧
    (writeAll imgs).Read = imgs.getLast? ∧
    NewFrameBuffer.Read = none := by
  refine ⟨?_, ?_, rfl⟩
  · have := foldl_write_frameCount imgs NewFrameBuffer
    simpa [writeAll, FrameBuffer.GetFrameCount, NewFrameBuffer] using this
  · have := foldl_write_frame imgs NewFrameBuffer
    simp only [writeAll, FrameBuffer.Read, NewFrameBuffer] at this ⊢
    rw [this]
    cases imgs.getLast? <;> rfl

/-- **C4.** With `lastSeen` the sequence number produced after the
`earlier` writes, and the buffer having since received the `later`
writes: `ReadIfNew lastSeen` reports `hasNew = false` iff no write
occurred since (`later = []`); otherwise it returns the most recently
written image together with the current `frameCount`, which strictly
exceeds `lastSeen`. Before any write, `ReadIfNew 0` returns
`hasNew = false` and no frame. -/
theorem frameBuffer_readIfNew_iff_new_write (earlier later : List Nat) :
    (((writeAll (earlier ++ later)).ReadIfNew
        (writeAll earlier).GetFrameCount).2.2 = false ↔ later = []) ∧
    (later ≠ [] →
      (writeAll (earlier ++ later)).ReadIfNew (writeAll earlier).GetFrameCount =
        ((earlier ++ later).getLast?, (writeAll (earlier ++ later)).GetFrameCount,
          true) ∧
      (writeAll earlier).GetFrameCount <
        (writeAll (earlier ++ later)).GetFrameCount) ∧
    NewFrameBuffer.ReadIfNew 0 = (none, 0, false) := by
  have hcount : ∀ l : List Nat, (writeAll l).GetFrameCount = l.length := by
    intro l
    have := foldl_write_frameCount l NewFrameBuffer
    simpa [writeAll, FrameBuffer.GetFrameCount, NewFrameBuffer] using this
  have hframe : (writeAll (earlier ++ later)).frame = (earlier ++ later).getLast? := by
    have := foldl_write_frame (earlier ++ later) NewFrameBuffer
    simp only [writeAll, NewFrameBuffer] at this ⊢
    rw [this]
    cases (earlier ++ later).getLast? <;> rfl
  have hfc : (writeAll (earlier ++ later)).frameCount =
      earlier.length + later.length := by
    have := hcount (earlier ++ later)
    simpa [FrameBuffer.GetFrameCount] using this
  refine ⟨?_, ?_, rfl⟩
  · constructor
    · intro hfalse
      by_contra hne
      have hlt : (writeAll earlier).GetFrameCount <
          (writeAll (earlier ++ later)).frameCount := by
        rw [hcount earlier, hfc]
        have : 0 < later.length := List.length_pos.mpr hne
        omega
      have := (readIfNew_cases (writeAll (earlier ++ later))
        (writeAll earlier).GetFrameCount).1 hlt
      rw [this] at hfalse
      simp at hfalse
    · intro hnil
      have hnlt : ¬(writeAll earlier).GetFrameCount <
          (writeAll (earlier ++ later)).frameCount := by
        rw [hcount earlier, hfc, hnil]
        simp
      have := (readIfNew_cases (writeAll (earlier ++ later))
        (writeAll earlier).GetFrameCount).2 hnlt
      rw [this]
  · intro hne
    have hlt : (writeAll earlier).GetFrameCount <
        (writeAll (earlier ++ later)).frameCount := by
      rw [hcount earlier, hfc]
      have : 0 < later.length := List.length_pos.mpr hne
      omega
    have heq := (readIfNew_cases (writeAll (earlier ++ later))
      (writeAll earlier).GetFrameCount).1 hlt
    refine ⟨?_, ?_⟩
    · rw [heq, hframe]
      rfl
    · show (writeAll earlier).GetFrameCount <
        (writeAll (earlier ++ later)).GetFrameCount
      exact hlt

/-- **C4, witness.** One earlier write (sequence 1) and one later
write: `ReadIfNew 1` reports the new frame 7 with sequence 2 > 1;
dually the fresh buffer reports nothing. -/
theorem frameBuffer_readIfNew_witness :
    (writeAll ([5] ++ [7])).ReadIfNew (writeAll [5]).GetFrameCount =
      (some 7, 2, true) ∧
    (writeAll [5]).GetFrameCount < (writeAll ([5] ++ [7])).GetFrameCount := by
  have h := (frameBuffer_readIfNew_iff_new_write [5] [7]).2.1 (by decide)
  exact ⟨by rw [h.1]; decide, h.2⟩

/-! ## Theorems: adaptive controller claims -/

/-- **C6.** `changeFPS(target)` always leaves the current FPS at the
target clamped into `[minFPS, maxFPS]`; when the requested value is
already the current FPS (current FPS within bounds), the call is a
complete no-op — the whole controller state, in particular the
adjustment counter, is unchanged. With `minFPS = 10`, `maxFPS = 20`:
`changeFPS(5) → 10`, then `changeFPS(30) → 20`, then
`changeFPS(15) → 15`. -/
theorem changeFPS_clamps_and_noop :
    (∀ (sc : SmartController) (target : Nat),
      (sc.changeFPS target).GetCurrentFPS = min sc.maxFPS (max sc.minFPS target)) ∧
    (∀ sc : SmartController, sc.minFPS ≤ sc.currentFPS → sc.currentFPS ≤ sc.maxFPS →
      sc.changeFPS sc.currentFPS = sc ∧
      (sc.changeFPS sc.currentFPS).adjustCount = sc.adjustCount) ∧
    ((NewSmartController (some ⟨true, 20, 10⟩)).changeFPS 5).GetCurrentFPS = 10 ∧
    (((NewSmartController (some ⟨true, 20, 10⟩)).changeFPS 5).changeFPS
        30).GetCurrentFPS = 20 ∧
    ((((NewSmartController (some ⟨true, 20, 10⟩)).changeFPS 5).changeFPS
        30).changeFPS 15).GetCurrentFPS = 15 := by
  refine ⟨?_, ?_, by decide, by decide, by decide⟩
  · intro sc target
    unfold SmartController.changeFPS SmartController.GetCurrentFPS
    by_cases h : min sc.maxFPS (max sc.minFPS target) = sc.currentFPS
    · rw [if_pos h]
      exact h.symm
    · rw [if_neg h]
  · intro sc h1 h2
    have hcl : min sc.maxFPS (max sc.minFPS sc.currentFPS) = sc.currentFPS := by
      rw [max_eq_right h1, min_eq_right h2]
    have : sc.changeFPS sc.currentFPS = sc := by
      simp [SmartController.changeFPS, hcl]
    exact ⟨this, by rw [this]⟩

/-- **C6, witness.** On the controller built from
`(dynamic, captureFPS 20, minDynamicFPS 10)` (current FPS 20), asking
for the already-current value 20 changes nothing. -/
theorem changeFPS_clamps_and_noop_witness :
    (NewSmartController (some ⟨true, 20, 10⟩)).changeFPS
        (NewSmartController (some ⟨true, 20, 10⟩)).currentFPS =
      NewSmartController (some ⟨true, 20, 10⟩) :=
  (changeFPS_clamps_and_noop.2.1 (NewSmartController (some ⟨true, 20, 10⟩))
    (by decide) (by decide)).1

/-- **C7.** For every configuration with dynamic FPS adjustment
disabled, the controller is constructed in fixed-rate mode:
`minFPS = maxFPS = GetCurrentFPS() = configured capture FPS`; in
particular the disabled config with capture FPS 15 yields 15/15/15. -/
theorem fixedRate_when_dynamic_disabled :
    (∀ c : Config, c.DynamicFPSEnabled = false →
      (NewSmartController (some c)).minFPS = c.CaptureFPS ∧
      (NewSmartController (some c)).maxFPS = c.CaptureFPS ∧
      (NewSmartController (some c)).GetCurrentFPS = c.CaptureFPS) ∧
    (NewSmartController (some ⟨false, 15, 10⟩)).minFPS = 15 ∧
    (NewSmartController (some ⟨false, 15, 10⟩)).maxFPS = 15 ∧
    (NewSmartController (some ⟨false, 15, 10⟩)).GetCurrentFPS = 15 := by
  refine ⟨?_, by decide, by decide, by decide⟩
  intro c h
  simp [NewSmartController, h, SmartController.GetCurrentFPS]

/-- **C7, witness.** The disabled configuration with capture FPS 15. -/
theorem fixedRate_when_dynamic_disabled_witness :
    (NewSmartController (some ⟨false, 15, 10⟩)).minFPS = 15 ∧
    (NewSmartController (some ⟨false, 15, 10⟩)).maxFPS = 15 ∧
    (NewSmartController (some ⟨false, 15, 10⟩)).GetCurrentFPS = 15 :=
  fixedRate_when_dynamic_disabled.1 ⟨false, 15, 10⟩ rfl

/-! ## Theorems: telemetry normalization claim -/

/-- Clamping a rational into `[0, 1]` by the two conditionals equals
the `min`/`max` form. -/
lemma clamp01_eq (v : ℚ) :
    (if v < 0 then (0 : ℚ) else if 1 < v then 1 else v) = min 1 (max 0 v) := by
  rcases lt_or_le v 0 with h | h
  · rw [if_pos h, max_eq_left h.le, min_eq_right (by norm_num)]
  · rw [if_neg (not_lt.mpr h), max_eq_right h]
    rcases lt_or_le 1 v with h1 | h1
    · rw [if_pos h1, min_eq_left h1.le]
    · rw [if_neg (not_lt.mpr h1), min_eq_right h1]

/-- **C8.** `normalizeLoadAverage(load1, cpuCount)` equals
`load1 / max(cpuCount, 1)` clamped into `[0, 1]` (a non-positive core
count counts as one core), and in particular
`normalizeLoadAverage(2, 4) = 1/2`, `(10, 4) = 1`, `(−1, 4) = 0`,
`(1, 0) = 1`. -/
theorem normalizeLoadAverage_clamped_spec :
    (∀ (load1 : ℚ) (cpuCount : Int),
      normalizeLoadAverage load1 cpuCount =
        min 1 (max 0 (load1 / ((max cpuCount 1 : Int) : ℚ)))) ∧
    normalizeLoadAverage 2 4 = 1/2 ∧
    normalizeLoadAverage 10 4 = 1 ∧
    normalizeLoadAverage (-1) 4 = 0 ∧
    normalizeLoadAverage 1 0 = 1 := by
  refine ⟨?_, ?_, ?_, ?_, ?_⟩
  · intro l c
    have hcores : (if c ≤ 0 then (1 : Int) else c) = max c 1 := by
      by_cases hc : c ≤ 0
      · rw [if_pos hc, max_eq_right (by omega)]
      · rw [if_neg hc, max_eq_left (by omega)]
    simp only [normalizeLoadAverage]
    rw [hcores]
    exact clamp01_eq _
  · norm_num [normalizeLoadAverage]
  · norm_num [normalizeLoadAverage]
  · norm_num [normalizeLoadAverage]
  · norm_num [normalizeLoadAverage]

end CameraDash
